import Mathlib

/-!
Verification development for the perplexity-ai-cpp-client request-admission
and retry-orchestration subsystem.

The definitions below are a shallow embedding of the C++ sources:

* `src/include/exceptions.h` — the exception taxonomy (`PerplexityError`);
* `src/include/client.h`     — `Client::handle_http_response` and
  `Client::execute_request_with_retry`;
* `src/include/rateLimiter.h` — the `RateLimiter` class.

Machine integers are modelled with `Int`/`Nat` (the values involved — HTTP
status codes, request counts, millisecond durations — are far from any
overflow boundary exercised here).  Exception control flow is modelled with
`Except`.  Timestamps are `Nat` values in milliseconds on the steady-clock
axis; `std::chrono::minutes(1)` is `60000` ms.
-/

namespace Perplexity

/-! ## A model of nlohmann::json values

Only what `handle_http_response` inspects: objects with string keys,
strings, and integers (plus the remaining constructors so that a body can
hold arbitrary shapes).  `Json.find` models `operator[]` on a key known via
`contains` (nlohmann `contains` is `false` on non-objects).  `getString` /
`getInt` model `get<std::string>` / `get<int>`: on a value of the wrong
type the C++ call throws (modelled as `none`; the only uses are inside
`try`/`catch`).  The theorems below only exercise `getInt` on integer
fields and on absent/unparseable bodies, so nlohmann's extra numeric
coercions (e.g. booleans) are outside every statement proved here. -/

inductive Json where
  | null
  | jbool (b : Bool)
  | num (n : Int)
  | str (s : String)
  | arr (elems : List Json)
  | obj (fields : List (String × Json))

def lookupField : List (String × Json) → String → Option Json
  | [], _ => none
  | (k, v) :: rest, key => if k = key then some v else lookupField rest key

def Json.find : Json → String → Option Json
  | .obj fields, key => lookupField fields key
  | _, _ => none

def Json.getString : Json → Option String
  | .str s => some s
  | _ => none

def Json.getInt : Json → Option Int
  | .num n => some n
  | _ => none

/-- An HTTP response body: the raw text together with the outcome of
`json::parse` on it (`none` models a parse that throws). -/
structure Body where
  raw : String
  parsed : Option Json

/-! ## The exception taxonomy (`exceptions.h`)

Each constructor carries the message passed to the C++ exception
constructor (before the class prepends its `"... error: "` prefix) and the
structured payload, if any.  `TimeoutError` derives directly from
`PerplexityException` in the source — in particular it is *not* a
`NetworkError` — which matters for the retry loop's catch clauses. -/

inductive PerplexityError where
  | configuration (msg : String)
  | validation (msg : String)
  | authentication (msg : String)
  | rateLimit (msg : String) (retryAfter : Option Int)
  | server (msg : String) (statusCode : Int)
  | network (msg : String) (statusCode : Option Int)
  | timeout (msg : String)
  | jsonParse (msg : String)
deriving Repr, DecidableEq

/-! ## `Client::handle_http_response` (client.h, lines 37–82) -/

/-- The body of the first `try` block of `handle_http_response`, compiled
to `Except`: `.error ()` is an exception escaping the block (here only the
`get<std::string>()` on a non-string `error.message`; a parse failure is
handled by the caller via `Body.parsed = none`).  `.ok none` means the
block ran to completion without assigning a message. -/
def extractErrorField (j : Json) : Except Unit (Option String) :=
  match j.find "error" with
  | none => .ok none
  | some e =>
    match e with
    | .str s => .ok (some s)
    | .obj fields =>
      match lookupField fields "message" with
      | none => .ok none
      | some m =>
        match m.getString with
        | some s => .ok (some s)
        | none => .error ()
    | _ => .ok none

/-- The error-message derivation of `handle_http_response`: start from
`"HTTP <code>"`, try to extract a structured `error` field, and on an
exception (parse failure, or a throwing field extraction) fall back to the
raw body when it is non-empty and shorter than 200. -/
def extract_error_message (status_code : Int) (body : Body) : String :=
  let default_msg := "HTTP " ++ toString status_code
  match body.parsed with
  | none =>
    if body.raw ≠ "" ∧ body.raw.length < 200 then body.raw else default_msg
  | some j =>
    match extractErrorField j with
    | .ok (some s) => s
    | .ok none => default_msg
    | .error () =>
      if body.raw ≠ "" ∧ body.raw.length < 200 then body.raw else default_msg

/-- The `retry_after` extraction of the 429 branch: re-parse the body and
read `retry_after` via `get<int>`; any exception leaves it `nullopt`. -/
def parse_retry_after (body : Body) : Option Int :=
  match body.parsed with
  | none => none
  | some j =>
    match j.find "retry_after" with
    | none => none
    | some v => v.getInt

/-- `Client::handle_http_response`: 2xx returns normally, everything else
throws the error selected by the `switch` on the status code. -/
def handle_http_response (status_code : Int) (body : Body) :
    Except PerplexityError Unit :=
  if 200 ≤ status_code ∧ status_code < 300 then .ok ()
  else
    let msg := extract_error_message status_code body
    if status_code = 400 then .error (.validation msg)
    else if status_code = 401 ∨ status_code = 403 then .error (.authentication msg)
    else if status_code = 429 then .error (.rateLimit msg (parse_retry_after body))
    else if status_code = 500 ∨ status_code = 502 ∨ status_code = 503 ∨ status_code = 504 then
      .error (.server msg status_code)
    else .error (.network msg (some status_code))

/-! ## `Client::execute_request_with_retry` (client.h, lines 87–137) -/

/-- The outcome of one transport attempt (`request_func` + `get_response_code`):
either the request function returned with a status code and body, or
`HttpClient::post` threw `TimeoutError` (CURLE_OPERATION_TIMEDOUT) or
`NetworkError` (any other CURL failure; no status code attached). -/
inductive TransportResult where
  | response (status_code : Int) (body : Body)
  | timeoutExn (msg : String)
  | networkExn (msg : String)

/-- One iteration's `try` block: run the attempt and push the response
through `handle_http_response`; on 2xx the raw body is returned. -/
def attempt_result (t : TransportResult) : Except PerplexityError String :=
  match t with
  | .response st body =>
    match handle_http_response st body with
    | .ok () => .ok body.raw
    | .error e => .error e
  | .timeoutExn m => .error (.timeout m)
  | .networkExn m => .error (.network m none)

/-- The errors the loop catches and retries: exactly the `catch (ServerError)`
and `catch (NetworkError)` clauses.  `RateLimitError` / `AuthenticationError`
/ `ValidationError` are caught and immediately rethrown, and every other
exception type (notably `TimeoutError`, which is not a `NetworkError`)
matches no clause and propagates out of the loop at once — observably the
same immediate propagation. -/
def retries_in_loop : PerplexityError → Bool
  | .server _ _ => true
  | .network _ _ => true
  | _ => false

/-- The classification of an error as one of the three explicitly rethrown
catch clauses (`RateLimitError`, `AuthenticationError`, `ValidationError`). -/
def rethrown_immediately : PerplexityError → Bool
  | .rateLimit _ _ => true
  | .authentication _ => true
  | .validation _ => true
  | _ => false

/-- Observable trace of one `execute_request_with_retry` call: the terminal
outcome, how many attempts were started, and the backoff sleeps (in ms, in
order) performed between attempts. -/
structure RetryTrace where
  result : Except PerplexityError String
  attempts : Nat
  sleeps_ms : List Nat

/-- The `while (attempt <= max_retries)` loop.  `fuel` counts the remaining
loop iterations: the loop guard `attempt ≤ max_retries` holds iff
`fuel > 0`, which the entry point establishes by starting with
`fuel = max_retries + 1` and both counters moving in lockstep
(`fuel + attempt = max_retries + 1` throughout).  `fuel = 0` is therefore
exactly the fall-through exit, where the recorded `last_exception` is
rethrown, or — were no exception recorded — the generic
`NetworkError("Request failed after N retries")` thrown. -/
def retryLoop (transport : Nat → TransportResult) (max_retries : Nat) :
    Nat → Nat → Option PerplexityError → List Nat → RetryTrace
  | 0, attempt, last_exception, sleeps =>
    match last_exception with
    | some e => ⟨.error e, attempt, sleeps⟩
    | none =>
      ⟨.error (.network ("Request failed after " ++ toString max_retries ++ " retries") none),
        attempt, sleeps⟩
  | fuel + 1, attempt, _last_exception, sleeps =>
    match attempt_result (transport attempt) with
    | .ok resp => ⟨.ok resp, attempt + 1, sleeps⟩
    | .error e =>
      if retries_in_loop e then
        -- ServerError / NetworkError: record, back off if budget remains, continue
        let sleeps2 := if attempt < max_retries then sleeps ++ [100 * 2 ^ attempt] else sleeps
        retryLoop transport max_retries fuel (attempt + 1) (some e) sleeps2
      else
        -- rethrown (RateLimit/Authentication/Validation) or uncaught (e.g. Timeout)
        ⟨.error e, attempt + 1, sleeps⟩

/-- `Client::execute_request_with_retry`, with the per-attempt transport
outcome supplied as a function of the (0-based) attempt index. -/
def execute_request_with_retry (max_retries : Nat)
    (transport : Nat → TransportResult) : RetryTrace :=
  retryLoop transport max_retries (max_retries + 1) 0 none []

/-! ## `RateLimiter` (rateLimiter.h)

The deque of `steady_clock` time points becomes a `List Nat` of millisecond
timestamps, oldest first.  Operations receive the current time `now`
explicitly; the steady clock never goes backwards, which appears as a
monotonicity side condition where a claim needs it.  The mutex serialises
the operations, so a state-transition model over one state is faithful. -/

structure RateLimiterState where
  request_times : List Nat
  max_requests_per_minute : Int
  enabled : Bool

/-- `std::chrono::minutes(1)` in milliseconds. -/
def window_ms : Nat := 60000

/-- `RateLimiter::cleanup_old_requests`: pop from the front while the front
is older than `now - 1min`.  (`Nat` subtraction truncates at 0, which
coincides with the C++ comparison for `now < 60000`: timestamps are
non-negative, so nothing is evicted either way.) -/
def cleanup_old_requests (now : Nat) : List Nat → List Nat
  | [] => []
  | t :: rest =>
    if t < now - window_ms then cleanup_old_requests now rest else t :: rest

/-- The `RateLimiter` constructor: member initialisation followed by the
positivity check, whose failure throws `ConfigurationError` before the
object exists. -/
def mkRateLimiter (max_requests_per_minute : Int) (enabled : Bool) :
    Except PerplexityError RateLimiterState :=
  if max_requests_per_minute ≤ 0 then
    .error (.configuration "Max requests per minute must be positive")
  else
    .ok ⟨[], max_requests_per_minute, enabled⟩

/-- The `while (request_times_.size() >= capacity)` wait loop of
`wait_if_needed`, entered after the initial cleanup.  A sleep releases the
lock and suspends until at least `oldest + 1min`; `wakes` supplies the
actual wake-up time of each successive sleep, clamped from below because
`sleep_for` suspends for at least the requested duration.  Returns the time
at which the loop exits together with the retained timestamps at that
moment (just before `push_back`).  The `head?.getD 0` totalises
`deque::front()`, which the source only calls with `size ≥ capacity ≥ 1`.

Termination: every sleep iteration either evicts at least one timestamp or
wakes exactly at `oldest + 1min`, in which case the next iteration hits the
`break`. -/
def waitLoop (cap : Int) (wakes : List Nat) (times : List Nat) (now : Nat) :
    Nat × List Nat :=
  if (times.length : Int) < cap then (now, times)
  else
    if _hw : times.head?.getD 0 + window_ms > now then
      waitLoop cap wakes.tail
        (cleanup_old_requests
          (max (wakes.head?.getD (times.head?.getD 0 + window_ms))
            (times.head?.getD 0 + window_ms)) times)
        (max (wakes.head?.getD (times.head?.getD 0 + window_ms))
          (times.head?.getD 0 + window_ms))
    else
      (now, times)
termination_by (times.length, if times.head?.getD 0 + window_ms > now then 1 else 0)
decreasing_by
  simp_wf
  have hsub : ∀ (m : Nat) (l : List Nat), (cleanup_old_requests m l).Sublist l := by
    intro m l
    induction l with
    | nil => simp [cleanup_old_requests]
    | cons t rest ih =>
      simp only [cleanup_old_requests]
      split
      · exact ih.trans (List.sublist_cons_self t rest)
      · exact List.Sublist.refl _
  rcases lt_or_eq_of_le (hsub _ times).length_le with hlt | heq
  · exact Prod.Lex.left _ _ hlt
  · rw [(hsub _ times).eq_of_length heq]
    apply Prod.Lex.right
    split <;> omega

/-- `RateLimiter::wait_if_needed`: bypass when disabled (recording
nothing); otherwise cleanup, wait while full, then append the current
time.  Returns the time at which the call returns and the new state. -/
def wait_if_needed (s : RateLimiterState) (now : Nat) (wakes : List Nat) :
    Nat × RateLimiterState :=
  if s.enabled = false then (now, s)
  else
    let cleaned := cleanup_old_requests now s.request_times
    let r := waitLoop s.max_requests_per_minute wakes cleaned now
    (r.1, { s with request_times := r.2 ++ [r.1] })

/-- `RateLimiter::can_make_request`: bypass when disabled; otherwise
cleanup (a real mutation, via `const_cast`) and compare the retained count
with the capacity, recording nothing. -/
def can_make_request (s : RateLimiterState) (now : Nat) :
    Bool × RateLimiterState :=
  if s.enabled = false then (true, s)
  else
    let cleaned := cleanup_old_requests now s.request_times
    (decide ((cleaned.length : Int) < s.max_requests_per_minute),
      { s with request_times := cleaned })

/-- `RateLimiter::get_current_request_count`: cleanup (regardless of
`enabled_`) and return the retained count. -/
def get_current_request_count (s : RateLimiterState) (now : Nat) :
    Nat × RateLimiterState :=
  let cleaned := cleanup_old_requests now s.request_times
  (cleaned.length, { s with request_times := cleaned })

/-- `RateLimiter::set_enabled`. -/
def set_enabled (s : RateLimiterState) (b : Bool) : RateLimiterState :=
  { s with enabled := b }

/-- `RateLimiter::set_limit`: the positivity check precedes the lock and
the assignment, so a failing call mutates nothing. -/
def set_limit (s : RateLimiterState) (cap : Int) :
    Except PerplexityError RateLimiterState :=
  if cap ≤ 0 then
    .error (.configuration "Max requests per minute must be positive")
  else
    .ok { s with max_requests_per_minute := cap }

/-- `RateLimiter::reset`. -/
def reset (s : RateLimiterState) : RateLimiterState :=
  { s with request_times := [] }

/-- `n` successive `can_make_request` probes at one instant, threading the
(`const_cast`-mutated) state. -/
def probe_times (n : Nat) (s : RateLimiterState) (now : Nat) : RateLimiterState :=
  match n with
  | 0 => s
  | k + 1 => probe_times k (can_make_request s now).2 now

/-- The state invariant of the limiter: retained timestamps are in
insertion order, which is chronological order (the clock is monotone), none
lies in the future, and the capacity is positive (enforced by the
constructor and `set_limit`). -/
def RLInv (s : RateLimiterState) (now : Nat) : Prop :=
  s.request_times.Sorted (· ≤ ·) ∧ (∀ t ∈ s.request_times, t ≤ now) ∧
    0 < s.max_requests_per_minute

/-- One observable step of the limiter: any public operation at the current
time, or the monotone steady clock advancing. -/
inductive RLStep : RateLimiterState × Nat → RateLimiterState × Nat → Prop where
  | wait (s : RateLimiterState) (now : Nat) (wakes : List Nat) :
      RLStep (s, now) ((wait_if_needed s now wakes).2, (wait_if_needed s now wakes).1)
  | probe (s : RateLimiterState) (now : Nat) :
      RLStep (s, now) ((can_make_request s now).2, now)
  | count (s : RateLimiterState) (now : Nat) :
      RLStep (s, now) ((get_current_request_count s now).2, now)
  | clear (s : RateLimiterState) (now : Nat) :
      RLStep (s, now) (reset s, now)
  | limit (s : RateLimiterState) (now : Nat) (cap : Int) (s2 : RateLimiterState)
      (h : set_limit s cap = .ok s2) :
      RLStep (s, now) (s2, now)
  | toggle (s : RateLimiterState) (now : Nat) (b : Bool) :
      RLStep (s, now) (set_enabled s b, now)
  | tick (s : RateLimiterState) (now now2 : Nat) (h : now ≤ now2) :
      RLStep (s, now) (s, now2)

/-- The states reachable from a freshly constructed limiter through any
sequence of operations. -/
inductive RLReachable : RateLimiterState × Nat → Prop where
  | init (cap : Int) (enabled : Bool) (now : Nat) (s : RateLimiterState)
      (h : mkRateLimiter cap enabled = .ok s) : RLReachable (s, now)
  | step (p q : RateLimiterState × Nat) (hp : RLReachable p) (hs : RLStep p q) :
      RLReachable q

/-! ## Helper lemmas -/

theorem cleanup_sublist (now : Nat) (l : List Nat) :
    (cleanup_old_requests now l).Sublist l := by
  induction l with
  | nil => simp [cleanup_old_requests]
  | cons t rest ih =>
    simp only [cleanup_old_requests]
    split
    · exact ih.trans (List.sublist_cons_self t rest)
    · exact List.Sublist.refl _

theorem cleanup_idem (now : Nat) (l : List Nat) :
    cleanup_old_requests now (cleanup_old_requests now l) =
      cleanup_old_requests now l := by
  induction l with
  | nil => rfl
  | cons t rest ih =>
    by_cases h : t < now - window_ms
    · rw [cleanup_old_requests.eq_2, if_pos h]
      exact ih
    · rw [cleanup_old_requests.eq_2, if_neg h, cleanup_old_requests.eq_2, if_neg h]

theorem cleanup_sorted (now : Nat) (l : List Nat) (hs : l.Sorted (· ≤ ·)) :
    (cleanup_old_requests now l).Sorted (· ≤ ·) :=
  hs.sublist (cleanup_sublist now l)

/-- After a cleanup pass over a chronologically ordered window, every
retained timestamp is within the last minute. -/
theorem cleanup_fresh (now : Nat) (l : List Nat) (hs : l.Sorted (· ≤ ·)) :
    ∀ t ∈ cleanup_old_requests now l, now - window_ms ≤ t := by
  induction l with
  | nil => simp [cleanup_old_requests]
  | cons a rest ih =>
    intro t ht
    simp only [cleanup_old_requests] at ht
    split at ht
    · exact ih (List.sorted_cons.mp hs).2 t ht
    · rename_i hna
      rcases List.mem_cons.mp ht with rfl | hmem
      · omega
      · have hat : a ≤ t := (List.sorted_cons.mp hs).1 t hmem
        omega

/-- An error matching no retried catch clause ends the call on the spot:
one attempt, no sleep.  This covers both the explicitly rethrown clauses
(RateLimit/Authentication/Validation) and exception types the loop does not
catch at all (notably Timeout). -/
theorem retry_immediate_propagation (max_retries : Nat)
    (transport : Nat → TransportResult) (e : PerplexityError)
    (ha : attempt_result (transport 0) = .error e)
    (hr : retries_in_loop e = false) :
    execute_request_with_retry max_retries transport = ⟨.error e, 1, []⟩ := by
  simp [execute_request_with_retry, retryLoop, ha, hr]

/-- Every terminal error of the retry loop was produced by an actual
attempt whose index is within the budget, provided the recorded
`last_exception` already has that provenance and the loop cannot fall
through with nothing recorded. -/
theorem retryLoop_provenance (transport : Nat → TransportResult) (max_retries : Nat) :
    ∀ fuel attempt last_exception sleeps,
      fuel + attempt = max_retries + 1 →
      (last_exception = none → attempt = 0) →
      (∀ e, last_exception = some e →
        ∃ k, k ≤ max_retries ∧ attempt_result (transport k) = .error e) →
      (∃ r, (retryLoop transport max_retries fuel attempt last_exception sleeps).result = .ok r) ∨
      (∃ k e, k ≤ max_retries ∧ attempt_result (transport k) = .error e ∧
        (retryLoop transport max_retries fuel attempt last_exception sleeps).result = .error e) := by
  intro fuel
  induction fuel with
  | zero =>
    intro attempt last_exception sleeps hsum hnone hprov
    cases last_exception with
    | none =>
      have := hnone rfl
      omega
    | some e =>
      right
      obtain ⟨k, hk, he⟩ := hprov e rfl
      exact ⟨k, e, hk, he, by simp [retryLoop]⟩
  | succ fuel ih =>
    intro attempt last_exception sleeps hsum hnone hprov
    cases hae : attempt_result (transport attempt) with
    | ok r =>
      left
      exact ⟨r, by simp [retryLoop, hae]⟩
    | error e =>
      by_cases hr : retries_in_loop e = true
      · have hrec := ih (attempt + 1) (some e)
          (if attempt < max_retries then sleeps ++ [100 * 2 ^ attempt] else sleeps)
          (by omega) (by intro h; cases h)
          (by
            intro e2 he2
            injection he2 with h
            subst h
            exact ⟨attempt, by omega, hae⟩)
        simpa [retryLoop, hae, hr] using hrec
      · right
        exact ⟨attempt, e, by omega, hae, by simp [retryLoop, hae, hr]⟩

/-! ## The claims -/

/-- C1: with `max_retries = 3` and a transport answering every attempt with
HTTP 503, `execute_request_with_retry` starts exactly 4 attempts, sleeps
100 ms, 200 ms and 400 ms after the first, second and third failures
(`100ms * 2^attempt`, none after the last attempt), and ends by rethrowing
the recorded `ServerError` carrying status code 503. -/
theorem c1_always_503_four_attempts (bodies : Nat → Body) :
    execute_request_with_retry 3 (fun n => .response 503 (bodies n)) =
      ⟨.error (.server (extract_error_message 503 (bodies 3)) 503), 4, [100, 200, 400]⟩ :=
  rfl

/-- C2: for every `max_retries`, an attempt whose status classifies as
Validation (400), Authentication (401/403) or RateLimited (429) on the
first attempt is propagated immediately: exactly one attempt is started, no
backoff sleep happens, and the error is one of the three explicitly
rethrown kinds. -/
theorem c2_terminal_status_immediate (max_retries : Nat)
    (transport : Nat → TransportResult) (st : Int) (body : Body)
    (hst : st = 400 ∨ st = 401 ∨ st = 403 ∨ st = 429)
    (h0 : transport 0 = .response st body) :
    ∃ e, execute_request_with_retry max_retries transport = ⟨.error e, 1, []⟩ ∧
      rethrown_immediately e = true := by
  rcases hst with h | h | h | h <;> subst h
  · exact ⟨.validation (extract_error_message 400 body),
      retry_immediate_propagation _ _ _ (by rw [h0]; rfl) rfl, rfl⟩
  · exact ⟨.authentication (extract_error_message 401 body),
      retry_immediate_propagation _ _ _ (by rw [h0]; rfl) rfl, rfl⟩
  · exact ⟨.authentication (extract_error_message 403 body),
      retry_immediate_propagation _ _ _ (by rw [h0]; rfl) rfl, rfl⟩
  · exact ⟨.rateLimit (extract_error_message 429 body) (parse_retry_after body),
      retry_immediate_propagation _ _ _ (by rw [h0]; rfl) rfl, rfl⟩

theorem c2_witness :
    ∃ e, execute_request_with_retry 5 (fun _ => .response 401 ⟨"", none⟩) =
      ⟨.error e, 1, []⟩ ∧ rethrown_immediately e = true :=
  c2_terminal_status_immediate 5 (fun _ => .response 401 ⟨"", none⟩) 401 ⟨"", none⟩
    (Or.inr (Or.inl rfl)) rfl

/-- C3 (counterexample): the claim predicts that a transport-level timeout
is retried like Server/Network — 4 attempts and backoff sleeps for
`max_retries = 3`.  In the source `TimeoutError` derives from
`PerplexityException`, not `NetworkError`, so it matches no catch clause of
the loop: the call ends after exactly 1 attempt with no sleep, not 4. -/
theorem c3_counterexample :
    execute_request_with_retry 3 (fun _ => .timeoutExn "Request timed out: t") =
      ⟨.error (.timeout "Request timed out: t"), 1, []⟩ ∧
    (1 : Nat) ≠ 4 ∧ ([] : List Nat) ≠ [100, 200, 400] :=
  ⟨rfl, by decide, by decide⟩

/-- C3 (amended): a transport-level timeout is **not** retried: it is
caught by no clause of the retry loop and propagates to the caller on first
occurrence — exactly one attempt, no backoff sleep, regardless of
`max_retries`. -/
theorem c3_amended_timeout_not_retried (max_retries : Nat)
    (transport : Nat → TransportResult) (m : String)
    (h0 : transport 0 = .timeoutExn m) :
    execute_request_with_retry max_retries transport = ⟨.error (.timeout m), 1, []⟩ :=
  retry_immediate_propagation max_retries transport (.timeout m) (by rw [h0]; rfl) rfl

theorem c3_amended_witness :
    execute_request_with_retry 3 (fun _ => .timeoutExn "Request timed out: t") =
      ⟨.error (.timeout "Request timed out: t"), 1, []⟩ :=
  c3_amended_timeout_not_retried 3 (fun _ => .timeoutExn "Request timed out: t")
    "Request timed out: t" rfl

/-- C9: the terminal outcome of `execute_request_with_retry` is either a
successful payload or an error produced by one of the attempts actually
made (index within the budget).  In particular, whenever the loop exits by
falling through, the rethrown error is the last recorded one, and the
generic `Network("Request failed after N retries")` fallback — which no
attempt produces — is unreachable for every `max_retries`. -/
theorem c9_fallback_unreachable (max_retries : Nat)
    (transport : Nat → TransportResult) :
    (∃ r, (execute_request_with_retry max_retries transport).result = .ok r) ∨
    (∃ k e, k ≤ max_retries ∧ attempt_result (transport k) = .error e ∧
      (execute_request_with_retry max_retries transport).result = .error e) := by
  have h := retryLoop_provenance transport max_retries (max_retries + 1) 0 none []
    (by omega) (fun _ => rfl) (by intro e h; cases h)
  simpa [execute_request_with_retry] using h

/-- C4: the full outcome classification of `handle_http_response`: 2xx
returns, 400 → Validation, 401/403 → Authentication, 429 → RateLimited
(with `retry_after` read from the parsed body when present as an integer
field and absent when the body does not parse or lacks the field),
500/502/503/504 → Server with the status, and every other status outside
[200, 300) → Network with the status. -/
theorem c4_classification (st : Int) (body : Body) :
    (200 ≤ st ∧ st < 300 → handle_http_response st body = .ok ()) ∧
    (st = 400 → handle_http_response st body =
      .error (.validation (extract_error_message st body))) ∧
    ((st = 401 ∨ st = 403) → handle_http_response st body =
      .error (.authentication (extract_error_message st body))) ∧
    (st = 429 → handle_http_response st body =
      .error (.rateLimit (extract_error_message st body) (parse_retry_after body))) ∧
    ((st = 500 ∨ st = 502 ∨ st = 503 ∨ st = 504) → handle_http_response st body =
      .error (.server (extract_error_message st body) st)) ∧
    (¬(200 ≤ st ∧ st < 300) → st ≠ 400 → st ≠ 401 → st ≠ 403 → st ≠ 429 →
      st ≠ 500 → st ≠ 502 → st ≠ 503 → st ≠ 504 → handle_http_response st body =
      .error (.network (extract_error_message st body) (some st))) ∧
    (∀ j n, body.parsed = some j → j.find "retry_after" = some (.num n) →
      parse_retry_after body = some n) ∧
    (body.parsed = none → parse_retry_after body = none) ∧
    (∀ j, body.parsed = some j → j.find "retry_after" = none →
      parse_retry_after body = none) := by
  refine ⟨?_, ?_, ?_, ?_, ?_, ?_, ?_, ?_, ?_⟩
  · intro h
    simp [handle_http_response, h]
  · intro h
    subst h
    simp [handle_http_response]
  · rintro (h | h) <;> subst h <;> simp [handle_http_response]
  · intro h
    subst h
    simp [handle_http_response]
  · rintro (h | h | h | h) <;> subst h <;> simp [handle_http_response]
  · intro h1 h2 h3 h4 h5 h6 h7 h8 h9
    simp [handle_http_response, h1, h2, h3, h4, h5, h6, h7, h8, h9]
  · intro j n hp hf
    simp [parse_retry_after, hp, hf, Json.getInt]
  · intro hp
    simp [parse_retry_after, hp]
  · intro j hp hf
    simp [parse_retry_after, hp, hf]

theorem c4_witness :
    handle_http_response 204 ⟨"", none⟩ = .ok () ∧
    handle_http_response 400 ⟨"", none⟩ =
      .error (.validation (extract_error_message 400 ⟨"", none⟩)) ∧
    handle_http_response 401 ⟨"", none⟩ =
      .error (.authentication (extract_error_message 401 ⟨"", none⟩)) ∧
    handle_http_response 429 ⟨"", none⟩ =
      .error (.rateLimit (extract_error_message 429 ⟨"", none⟩)
        (parse_retry_after ⟨"", none⟩)) ∧
    handle_http_response 503 ⟨"", none⟩ =
      .error (.server (extract_error_message 503 ⟨"", none⟩) 503) ∧
    handle_http_response 418 ⟨"", none⟩ =
      .error (.network (extract_error_message 418 ⟨"", none⟩) (some 418)) ∧
    parse_retry_after ⟨"", some (.obj [("retry_after", .num 5)])⟩ = some 5 ∧
    parse_retry_after ⟨"", none⟩ = none :=
  ⟨(c4_classification 204 ⟨"", none⟩).1 (by decide),
   (c4_classification 400 ⟨"", none⟩).2.1 rfl,
   (c4_classification 401 ⟨"", none⟩).2.2.1 (Or.inl rfl),
   (c4_classification 429 ⟨"", none⟩).2.2.2.1 rfl,
   (c4_classification 503 ⟨"", none⟩).2.2.2.2.1 (Or.inr (Or.inr (Or.inl rfl))),
   (c4_classification 418 ⟨"", none⟩).2.2.2.2.2.1 (by decide) (by decide) (by decide)
     (by decide) (by decide) (by decide) (by decide) (by decide) (by decide),
   (c4_classification 204 ⟨"", some (.obj [("retry_after", .num 5)])⟩).2.2.2.2.2.2.1
     (.obj [("retry_after", .num 5)]) 5 rfl rfl,
   (c4_classification 204 ⟨"", none⟩).2.2.2.2.2.2.2.1 rfl⟩

/-- C5 (counterexample): the claim says that when the body parses but the
`error` field is absent, the message falls back to the capped raw-body
excerpt.  In the source that fallback lives only in the `catch` block, so a
parseable body without an `error` field keeps the generic `"HTTP <code>"`
message even though the raw body is non-empty and under the cap: for status
418 and body `{"ok":1}` the message is `"HTTP 418"`, not the body. -/
theorem c5_counterexample :
    extract_error_message 418 ⟨"\x7b\"ok\":1\x7d", some (.obj [("ok", .num 1)])⟩ =
      "HTTP 418" ∧
    "HTTP 418" ≠ "\x7b\"ok\":1\x7d" ∧
    ("\x7b\"ok\":1\x7d" : String) ≠ "" ∧
    ("\x7b\"ok\":1\x7d" : String).length < 200 :=
  ⟨rfl, by decide, by decide, by decide⟩

/-- C5 (amended): the message of a non-2xx response is the body's `error`
field when the body parses and `error` is a string, or the `error` object's
`message` string field; when the body parses but yields no such field the
message is the generic `"HTTP <code>"`; the capped raw-body excerpt is used
only when parsing fails (then the generic string when the body is empty or
at least 200 characters long). -/
theorem c5_amended_message_derivation (st : Int) (body : Body) :
    (∀ j s, body.parsed = some j → j.find "error" = some (.str s) →
      extract_error_message st body = s) ∧
    (∀ j fields m, body.parsed = some j → j.find "error" = some (.obj fields) →
      lookupField fields "message" = some (.str m) →
      extract_error_message st body = m) ∧
    (∀ j, body.parsed = some j → j.find "error" = none →
      extract_error_message st body = "HTTP " ++ toString st) ∧
    (body.parsed = none → body.raw ≠ "" → body.raw.length < 200 →
      extract_error_message st body = body.raw) ∧
    (body.parsed = none → (body.raw = "" ∨ 200 ≤ body.raw.length) →
      extract_error_message st body = "HTTP " ++ toString st) := by
  refine ⟨?_, ?_, ?_, ?_, ?_⟩
  · intro j s hp hf
    simp [extract_error_message, hp, extractErrorField, hf]
  · intro j fields m hp hf hm
    simp [extract_error_message, hp, extractErrorField, hf, hm, Json.getString]
  · intro j hp hf
    simp [extract_error_message, hp, extractErrorField, hf]
  · intro hp h1 h2
    simp [extract_error_message, hp, h1, h2]
  · intro hp h
    rcases h with h | h
    · simp [extract_error_message, hp, h]
    · simp [extract_error_message, hp, show ¬ body.raw.length < 200 by omega]

theorem c5_amended_witness :
    extract_error_message 400
      ⟨"\x7b\"error\":\"bad\"\x7d", some (.obj [("error", .str "bad")])⟩ = "bad" ∧
    extract_error_message 400
      ⟨"\x7b\"error\":\x7b\"message\":\"oops\"\x7d\x7d",
        some (.obj [("error", .obj [("message", .str "oops")])])⟩ = "oops" ∧
    extract_error_message 418 ⟨"\x7b\"ok\":1\x7d", some (.obj [("ok", .num 1)])⟩ =
      "HTTP " ++ toString (418 : Int) ∧
    extract_error_message 500 ⟨"plain failure", none⟩ = "plain failure" ∧
    extract_error_message 500 ⟨"", none⟩ = "HTTP " ++ toString (500 : Int) :=
  ⟨(c5_amended_message_derivation 400
      ⟨"\x7b\"error\":\"bad\"\x7d", some (.obj [("error", .str "bad")])⟩).1
      (.obj [("error", .str "bad")]) "bad" rfl rfl,
   (c5_amended_message_derivation 400
      ⟨"\x7b\"error\":\x7b\"message\":\"oops\"\x7d\x7d",
        some (.obj [("error", .obj [("message", .str "oops")])])⟩).2.1
      (.obj [("error", .obj [("message", .str "oops")])]) [("message", .str "oops")]
      "oops" rfl rfl rfl,
   (c5_amended_message_derivation 418
      ⟨"\x7b\"ok\":1\x7d", some (.obj [("ok", .num 1)])⟩).2.2.1
      (.obj [("ok", .num 1)]) rfl rfl,
   (c5_amended_message_derivation 500 ⟨"plain failure", none⟩).2.2.2.1 rfl
      (by decide) (by decide),
   (c5_amended_message_derivation 500 ⟨"", none⟩).2.2.2.2 rfl (Or.inl rfl)⟩

theorem waitLoop_spec (cap : Int) (wakes times : List Nat) (now : Nat) :
    0 < cap → times.Sorted (· ≤ ·) →
    (∀ t ∈ times, now - window_ms ≤ t) → (∀ t ∈ times, t ≤ now) →
    now ≤ (waitLoop cap wakes times now).1 ∧
    (waitLoop cap wakes times now).2.Sorted (· ≤ ·) ∧
    (∀ t ∈ (waitLoop cap wakes times now).2,
      (waitLoop cap wakes times now).1 - window_ms ≤ t ∧
        t ≤ (waitLoop cap wakes times now).1) ∧
    (((waitLoop cap wakes times now).2.length : Int) < cap ∨
      (waitLoop cap wakes times now).2.head? =
        some ((waitLoop cap wakes times now).1 - window_ms)) := by
  refine waitLoop.induct cap
    (motive := fun wakes times now =>
      0 < cap → times.Sorted (· ≤ ·) →
      (∀ t ∈ times, now - window_ms ≤ t) → (∀ t ∈ times, t ≤ now) →
      now ≤ (waitLoop cap wakes times now).1 ∧
      (waitLoop cap wakes times now).2.Sorted (· ≤ ·) ∧
      (∀ t ∈ (waitLoop cap wakes times now).2,
        (waitLoop cap wakes times now).1 - window_ms ≤ t ∧
          t ≤ (waitLoop cap wakes times now).1) ∧
      (((waitLoop cap wakes times now).2.length : Int) < cap ∨
        (waitLoop cap wakes times now).2.head? =
          some ((waitLoop cap wakes times now).1 - window_ms)))
    ?_ ?_ ?_ wakes times now
  · intro wakes times now hlt hcap hsort hfresh hbound
    rw [waitLoop.eq_def, if_pos hlt]
    exact ⟨le_refl now, hsort, fun t ht => ⟨hfresh t ht, hbound t ht⟩, Or.inl hlt⟩
  · intro wakes times now hlt hw ih hcap hsort hfresh hbound
    rw [waitLoop.eq_def, if_neg hlt, dif_pos hw]
    have hnow2 : now ≤ max (wakes.head?.getD (times.head?.getD 0 + window_ms))
        (times.head?.getD 0 + window_ms) := by
      have h3 := Nat.le_max_right (wakes.head?.getD (times.head?.getD 0 + window_ms))
        (times.head?.getD 0 + window_ms)
      omega
    have h2 := ih hcap
      (cleanup_sorted _ _ hsort)
      (cleanup_fresh _ _ hsort)
      (fun t ht => le_trans (hbound t ((cleanup_sublist _ _).subset ht)) hnow2)
    exact ⟨le_trans hnow2 h2.1, h2.2⟩
  · intro wakes times now hlt hw hcap hsort hfresh hbound
    rw [waitLoop.eq_def, if_neg hlt, dif_neg hw]
    refine ⟨le_refl now, hsort, fun t ht => ⟨hfresh t ht, hbound t ht⟩, Or.inr ?_⟩
    cases times with
    | nil =>
      exfalso
      simp at hlt
      omega
    | cons t0 rest =>
      simp only [List.head?_cons, Option.getD_some] at hw
      have hf0 : now - window_ms ≤ t0 := hfresh t0 (List.mem_cons_self t0 rest)
      have ht0 : t0 = now - window_ms := by omega
      simp [ht0]


theorem sorted_append_singleton (l : List Nat) (a : Nat)
    (hs : l.Sorted (· ≤ ·)) (hb : ∀ x ∈ l, x ≤ a) :
    (l ++ [a]).Sorted (· ≤ ·) :=
  List.pairwise_append.mpr ⟨hs, List.pairwise_singleton _ _,
    fun x hx y hy => by
      rcases List.mem_singleton.mp hy with rfl
      exact hb x hx⟩

/-- Effect of one `wait_if_needed` call on the invariant: the call returns
no earlier than it was entered and preserves the invariant at the return
time. -/
theorem wait_if_needed_inv (s : RateLimiterState) (now : Nat) (wakes : List Nat)
    (hinv : RLInv s now) :
    now ≤ (wait_if_needed s now wakes).1 ∧
    RLInv (wait_if_needed s now wakes).2 (wait_if_needed s now wakes).1 := by
  obtain ⟨hsort, hbound, hcap⟩ := hinv
  by_cases he : s.enabled = false
  · have hval : wait_if_needed s now wakes = (now, s) := by
      unfold wait_if_needed
      rw [if_pos he]
    rw [hval]
    exact ⟨le_refl now, hsort, hbound, hcap⟩
  · obtain ⟨hle, hsort2, hmem2, _⟩ := waitLoop_spec s.max_requests_per_minute wakes
      (cleanup_old_requests now s.request_times) now hcap
      (cleanup_sorted _ _ hsort)
      (cleanup_fresh _ _ hsort)
      (fun t ht => hbound t ((cleanup_sublist _ _).subset ht))
    have hv1 : (wait_if_needed s now wakes).1 =
        (waitLoop s.max_requests_per_minute wakes
          (cleanup_old_requests now s.request_times) now).1 := by
      unfold wait_if_needed
      rw [if_neg he]
    have hv2 : (wait_if_needed s now wakes).2.request_times =
        (waitLoop s.max_requests_per_minute wakes
          (cleanup_old_requests now s.request_times) now).2 ++
        [(waitLoop s.max_requests_per_minute wakes
          (cleanup_old_requests now s.request_times) now).1] := by
      unfold wait_if_needed
      rw [if_neg he]
    have hv3 : (wait_if_needed s now wakes).2.max_requests_per_minute =
        s.max_requests_per_minute := by
      unfold wait_if_needed
      rw [if_neg he]
    refine ⟨?_, ?_, ?_, ?_⟩
    · rw [hv1]
      exact hle
    · rw [hv2]
      exact sorted_append_singleton _ _ hsort2 (fun x hx => (hmem2 x hx).2)
    · intro t ht
      rw [hv2] at ht
      rw [hv1]
      rcases List.mem_append.mp ht with h1 | h1
      · exact (hmem2 t h1).2
      · rcases List.mem_singleton.mp h1 with rfl
        exact le_refl _
    · rw [hv3]
      exact hcap

/-- Every reachable limiter state satisfies the window invariant. -/
theorem reachable_inv (p : RateLimiterState × Nat) (h : RLReachable p) :
    RLInv p.1 p.2 := by
  induction h with
  | init cap en now s hmk =>
    unfold mkRateLimiter at hmk
    split at hmk
    · simp at hmk
    · rename_i hle
      injection hmk with h2
      subst h2
      exact ⟨List.sorted_nil, fun t ht => absurd ht (List.not_mem_nil t), show (0 : Int) < cap by omega⟩
  | step p q hp hs ih =>
    cases hs with
    | wait s now wakes => exact (wait_if_needed_inv s now wakes ih).2
    | probe s now =>
      obtain ⟨hsort, hbound, hcap⟩ := ih
      by_cases he : s.enabled = false
      · have hval : (can_make_request s now).2 = s := by
          simp [can_make_request, he]
        rw [hval]
        exact ⟨hsort, hbound, hcap⟩
      · have hval : (can_make_request s now).2 =
            { s with request_times := cleanup_old_requests now s.request_times } := by
          simp [can_make_request, he]
        rw [hval]
        exact ⟨cleanup_sorted _ _ hsort,
          fun t ht => hbound t ((cleanup_sublist _ _).subset ht), hcap⟩
    | count s now =>
      obtain ⟨hsort, hbound, hcap⟩ := ih
      exact ⟨cleanup_sorted _ _ hsort,
        fun t ht => hbound t ((cleanup_sublist _ _).subset ht), hcap⟩
    | clear s now =>
      exact ⟨List.sorted_nil, fun t ht => absurd ht (List.not_mem_nil t), ih.2.2⟩
    | limit s now cap2 s2 hset =>
      obtain ⟨hsort, hbound, hcap⟩ := ih
      unfold set_limit at hset
      split at hset
      · simp at hset
      · rename_i hle
        injection hset with h2
        subst h2
        exact ⟨hsort, hbound, show (0 : Int) < cap2 by omega⟩
    | toggle s now b => exact ih
    | tick s now now2 hle =>
      obtain ⟨hsort, hbound, hcap⟩ := ih
      exact ⟨hsort, fun t ht => le_trans (hbound t ht) hle, hcap⟩

/-- C6: `can_make_request` probing never records a timestamp: for every
state, running any number of probes and then reading
`get_current_request_count` at the same instant gives the same count as
reading it without the probes, and the probed state holds no timestamp the
original state did not hold. -/
theorem c6_probes_do_not_change_count (s : RateLimiterState) (now n : Nat) :
    (get_current_request_count (probe_times n s now) now).1 =
      (get_current_request_count s now).1 ∧
    ∀ t ∈ (probe_times n s now).request_times, t ∈ s.request_times := by
  induction n generalizing s with
  | zero => exact ⟨rfl, fun t ht => ht⟩
  | succ k ih =>
    simp only [probe_times]
    by_cases he : s.enabled = false
    · have hval : (can_make_request s now).2 = s := by
        simp [can_make_request, he]
      rw [hval]
      exact ih s
    · have hval : (can_make_request s now).2 =
          { s with request_times := cleanup_old_requests now s.request_times } := by
        simp [can_make_request, he]
      rw [hval]
      obtain ⟨ihc, ihm⟩ :=
        ih { s with request_times := cleanup_old_requests now s.request_times }
      constructor
      · rw [ihc]
        simp [get_current_request_count, cleanup_idem]
      · intro t ht
        exact (cleanup_sublist now s.request_times).subset (ihm t ht)


/-- C7 (counterexample): the claim that the retained count is strictly
below capacity whenever `wait_if_needed` appends fails at the window
boundary.  Reachable run: capacity 1, one admission at time 0, clock at
60000 ms.  The cleanup keeps `0` (`0 < now - 60s` is false), the wait loop
computes `wait_until = 60000 = now` and takes the `break`, and the call
appends at a moment when the retained count is 1, not `< 1`: the window
becomes `[0, 60000]`. -/
theorem c7_counterexample :
    RLReachable (⟨[0], 1, true⟩, 60000) ∧
    (wait_if_needed ⟨[0], 1, true⟩ 60000 []).2.request_times = [0, 60000] ∧
    ¬ ((([0] : List Nat).length : Int) < 1) := by
  refine ⟨?_, ?_, by decide⟩
  · have h1 : RLReachable ((⟨[], 1, true⟩ : RateLimiterState), 0) :=
      .init 1 true 0 ⟨[], 1, true⟩ rfl
    have h2 := RLReachable.step _ _ h1 (RLStep.wait ⟨[], 1, true⟩ 0 [])
    have he : wait_if_needed ⟨[], 1, true⟩ 0 [] = (0, ⟨[0], 1, true⟩) := by
      simp [wait_if_needed, waitLoop, cleanup_old_requests]
    rw [he] at h2
    exact RLReachable.step _ _ h2 (RLStep.tick ⟨[0], 1, true⟩ 0 60000 (by omega))
  · simp [wait_if_needed, waitLoop, cleanup_old_requests, window_ms]

/-- C7 (amended): in every reachable limiter state, (3) the retained
timestamps are in chronological insertion order; (1) after the cleanup pass
at the current time no retained timestamp is older than 60 s; and (2,
weakened exactly by the counterexample) when an enabled limiter admits, the
new timestamp is appended at the end at a moment when the retained count is
strictly below the capacity **or** the oldest retained timestamp is exactly
60 s old (the boundary `break`). -/
theorem c7_amended_window_invariants (s : RateLimiterState) (now : Nat)
    (h : RLReachable (s, now)) :
    s.request_times.Sorted (· ≤ ·) ∧
    (∀ t ∈ cleanup_old_requests now s.request_times, now - window_ms ≤ t) ∧
    (∀ wakes, s.enabled = true →
      ∃ pre, (wait_if_needed s now wakes).2.request_times =
          pre ++ [(wait_if_needed s now wakes).1] ∧
        ((pre.length : Int) < s.max_requests_per_minute ∨
          pre.head? = some ((wait_if_needed s now wakes).1 - window_ms))) := by
  obtain ⟨hsort, hbound, hcap⟩ := reachable_inv (s, now) h
  refine ⟨hsort, cleanup_fresh _ _ hsort, ?_⟩
  intro wakes he
  have hne : ¬ s.enabled = false := by simp [he]
  have hv1 : (wait_if_needed s now wakes).1 =
      (waitLoop s.max_requests_per_minute wakes
        (cleanup_old_requests now s.request_times) now).1 := by
    unfold wait_if_needed
    rw [if_neg hne]
  have hv2 : (wait_if_needed s now wakes).2.request_times =
      (waitLoop s.max_requests_per_minute wakes
        (cleanup_old_requests now s.request_times) now).2 ++
      [(waitLoop s.max_requests_per_minute wakes
        (cleanup_old_requests now s.request_times) now).1] := by
    unfold wait_if_needed
    rw [if_neg hne]
  obtain ⟨_, _, _, hd⟩ := waitLoop_spec s.max_requests_per_minute wakes
    (cleanup_old_requests now s.request_times) now hcap
    (cleanup_sorted _ _ hsort)
    (cleanup_fresh _ _ hsort)
    (fun t ht => hbound t ((cleanup_sublist _ _).subset ht))
  refine ⟨(waitLoop s.max_requests_per_minute wakes
    (cleanup_old_requests now s.request_times) now).2, ?_, ?_⟩
  · rw [hv2, hv1]
  · rw [hv1]
    exact hd

theorem c7_amended_witness :
    (RateLimiterState.mk [] 2 true).request_times.Sorted (· ≤ ·) ∧
    (∀ t ∈ cleanup_old_requests 0 (RateLimiterState.mk [] 2 true).request_times,
      0 - window_ms ≤ t) ∧
    (∀ wakes, (RateLimiterState.mk [] 2 true).enabled = true →
      ∃ pre, (wait_if_needed ⟨[], 2, true⟩ 0 wakes).2.request_times =
          pre ++ [(wait_if_needed ⟨[], 2, true⟩ 0 wakes).1] ∧
        ((pre.length : Int) < 2 ∨
          pre.head? = some ((wait_if_needed ⟨[], 2, true⟩ 0 wakes).1 - window_ms))) :=
  c7_amended_window_invariants ⟨[], 2, true⟩ 0
    (.init 2 true 0 ⟨[], 2, true⟩ rfl)

/-- C8: `set_limit` rejects every capacity ≤ 0 with `ConfigurationError`,
mutating nothing (the check precedes the assignment, so the stored limit
and the recorded window keep their values), and accepts every positive
capacity, updating only the stored limit; likewise the constructor rejects
`max_requests_per_minute ≤ 0` with `ConfigurationError`. -/
theorem c8_limit_validation (s : RateLimiterState) (cap : Int) (en : Bool) :
    (cap ≤ 0 →
      set_limit s cap =
        .error (.configuration "Max requests per minute must be positive") ∧
      mkRateLimiter cap en =
        .error (.configuration "Max requests per minute must be positive")) ∧
    (0 < cap →
      set_limit s cap = .ok ⟨s.request_times, cap, s.enabled⟩ ∧
      mkRateLimiter cap en = .ok ⟨[], cap, en⟩) := by
  constructor
  · intro hle
    exact ⟨by simp [set_limit, hle], by simp [mkRateLimiter, hle]⟩
  · intro hpos
    have hne : ¬ cap ≤ 0 := by omega
    exact ⟨by simp [set_limit, hne], by simp [mkRateLimiter, hne]⟩

theorem c8_witness :
    (set_limit ⟨[7], 3, true⟩ 0 =
        .error (.configuration "Max requests per minute must be positive") ∧
      mkRateLimiter 0 true =
        .error (.configuration "Max requests per minute must be positive")) ∧
    (set_limit ⟨[7], 3, true⟩ 5 = .ok ⟨[7], 5, true⟩ ∧
      mkRateLimiter 5 true = .ok ⟨[], 5, true⟩) :=
  ⟨(c8_limit_validation ⟨[7], 3, true⟩ 0 true).1 (by decide),
   (c8_limit_validation ⟨[7], 3, true⟩ 5 true).2 (by decide)⟩

/-- C10: `set_enabled` only toggles the bypass flag — the recorded window
and the stored limit are untouched, so timestamps recorded before
`set_enabled false` still count after `set_enabled true` (same count at the
same instant as if the flag had never been toggled) — while `reset`
unconditionally clears the window and touches nothing else. -/
theorem c10_set_enabled_frame (s : RateLimiterState) (b : Bool) (now : Nat) :
    (set_enabled s b).request_times = s.request_times ∧
    (set_enabled s b).max_requests_per_minute = s.max_requests_per_minute ∧
    (set_enabled s b).enabled = b ∧
    (get_current_request_count (set_enabled (set_enabled s false) true) now).1 =
      (get_current_request_count s now).1 ∧
    (reset s).request_times = [] ∧
    (reset s).max_requests_per_minute = s.max_requests_per_minute ∧
    (reset s).enabled = s.enabled :=
  ⟨rfl, rfl, rfl, rfl, rfl, rfl, rfl⟩

end Perplexity
